import Mathlib

/-!
# Verification of the streaming speech-translation engine

Shallow embedding of `src/translation_engine.py` (class `TranslationEngine`)
together with the status-sink wiring of `src/main.py`.

The embedding follows the source:

* the capture callback with its VAD segmenter state (`callback` inside
  `_audio_producer`, lines 90-147),
* the playback consumer's interlock protocol (`_playback_consumer`,
  lines 231-276),
* the per-utterance processing step with its transcript filter
  (`_processing_consumer`, lines 165-229),
* the translation adapter (`_translate`, lines 308-327),
* the language-code resolution (`__init__` line 45-50 and `_transcribe`
  line 290).

External effects (the VAD oracle, the provider responses, whether a device
write raises) are inputs to the model; everything the Python code computes
from them is computed by the Lean definitions.
-/

namespace SpeechEngine

/-- One 30 ms capture invocation, as the capture callback sees it: the values
of the two interlock flags at that instant, the engine's `is_running` flag,
the VAD verdict for the frame (`vad.is_speech`; a VAD exception is modelled
as `false`, matching the `except: is_speech = False` in the source), and the
PCM sample values of `indata` as rationals on a full scale of `1.0`. -/
structure Frame where
  held : Bool
  playing : Bool
  running : Bool
  isSpeech : Bool
  samples : List ℚ
  deriving DecidableEq, Repr

/-- The mutable segmenter state closed over by `callback`:
`triggered`, `buffer`, `silence_counter`. -/
structure SegState where
  triggered : Bool
  buffer : List Frame
  silence : ℕ
  deriving DecidableEq, Repr

/-- Initial segmenter state: `triggered = False`, `buffer = []`,
`silence_counter = 0` (lines 85-87 of the source). -/
def SegState.init : SegState := ⟨false, [], 0⟩

/-- `SUCCESSIVE_SILENCE_LIMIT = int(1000 / frame_duration_ms)` with
`frame_duration_ms = 30`, i.e. `33` (Python `int` truncates). -/
def SUCCESSIVE_SILENCE_LIMIT : ℕ := 1000 / 30

/-- One execution of the capture callback on one frame: the new segmenter
state and the utterance (a list of frames) pushed onto `audio_queue`, if any.
Mirrors lines 102-147 of the source: the shared-event check, the
self-deafening check, the `is_running` guard, then the VAD decision with the
trailing-silence counter and the flush `if silence_counter >
SUCCESSIVE_SILENCE_LIMIT`. -/
def stepSeg (s : SegState) (f : Frame) : SegState × Option (List Frame) :=
  if f.held then (SegState.init, none)
  else if f.playing then (SegState.init, none)
  else if !f.running then (s, none)
  else if f.isSpeech then
    (⟨true, s.buffer ++ [f], 0⟩, none)
  else if s.triggered then
    let silence := s.silence + 1
    let buffer := s.buffer ++ [f]
    if SUCCESSIVE_SILENCE_LIMIT < silence then
      (SegState.init, if buffer.isEmpty then none else some buffer)
    else
      (⟨true, buffer, silence⟩, none)
  else (s, none)

/-- Run the capture callback over a frame sequence, collecting every
utterance pushed onto `audio_queue`, in order. -/
def runSeg (s : SegState) : List Frame → SegState × List (List Frame)
  | [] => (s, [])
  | f :: fs =>
    let p := stepSeg s f
    let r := runSeg p.1 fs
    (r.1, p.2.toList ++ r.2)

/-- A speech frame with no interlock held, as the callback sees it
(sample values irrelevant to segmentation). -/
def spF : Frame := ⟨false, false, true, true, []⟩

/-- A silence frame with no interlock held. -/
def siF : Frame := ⟨false, false, true, false, []⟩

/-- A frame observed while the shared interlock event is set. -/
def heldF : Frame := ⟨true, false, true, true, []⟩

/-- The trailing part of the buffer recorded by `silence_counter`:
the buffer ends in `silence` many non-speech frames. -/
def trailingSilence (s : SegState) : Prop :=
  ∃ pre sil, s.buffer = pre ++ sil ∧ sil.length = s.silence ∧
    ∀ f ∈ sil, f.isSpeech = false

/-- Reachable-state invariant of the capture callback's closure state:
the counter never exceeds the limit; when not triggered the buffer is empty
and the counter zero; when triggered the buffer starts with a speech frame
and ends in `silence_counter` many silence frames. -/
def SegInv (s : SegState) : Prop :=
  s.silence ≤ SUCCESSIVE_SILENCE_LIMIT ∧
  (s.triggered = false → s.buffer = [] ∧ s.silence = 0) ∧
  (s.triggered = true →
    (∃ hd tl, s.buffer = hd :: tl ∧ hd.isSpeech = true) ∧ trailingSilence s)

lemma segInv_init : SegInv SegState.init := by
  refine ⟨by simp [SegState.init, SUCCESSIVE_SILENCE_LIMIT], fun _ => ⟨rfl, rfl⟩, fun h => ?_⟩
  simp [SegState.init] at h

lemma segInv_step (s : SegState) (f : Frame) (hs : SegInv s) :
    SegInv (stepSeg s f).1 := by
  obtain ⟨hle, hoff, hon⟩ := hs
  by_cases h1 : f.held = true
  · rw [show (stepSeg s f).1 = SegState.init by simp [stepSeg, h1]]
    exact segInv_init
  by_cases h2 : f.playing = true
  · rw [show (stepSeg s f).1 = SegState.init by simp [stepSeg, h1, h2]]
    exact segInv_init
  by_cases h3 : f.running = true
  · by_cases h4 : f.isSpeech = true
    · -- speech frame: trigger, append, reset counter
      rw [show (stepSeg s f).1 = ⟨true, s.buffer ++ [f], 0⟩ by
        simp [stepSeg, h1, h2, h3, h4]]
      refine ⟨by simp, by simp, fun _ => ⟨?_, ?_⟩⟩
      · by_cases ht : s.triggered = true
        · obtain ⟨hd, tl, hb, hsp⟩ := (hon ht).1
          exact ⟨hd, tl ++ [f], by simp [hb], hsp⟩
        · have := hoff (by simpa using ht)
          exact ⟨f, [], by simp [this.1], h4⟩
      · exact ⟨s.buffer ++ [f], [], by simp, by simp, by simp⟩
    · -- silence frame
      by_cases ht : s.triggered = true
      · by_cases hlim : SUCCESSIVE_SILENCE_LIMIT < s.silence + 1
        · rw [show (stepSeg s f).1 = SegState.init by
            simp [stepSeg, h1, h2, h3, h4, ht, hlim]]
          exact segInv_init
        · rw [show (stepSeg s f).1 = ⟨true, s.buffer ++ [f], s.silence + 1⟩ by
            simp [stepSeg, h1, h2, h3, h4, ht, hlim]]
          refine ⟨Nat.not_lt.mp hlim, by simp, fun _ => ⟨?_, ?_⟩⟩
          · obtain ⟨hd, tl, hb, hsp⟩ := (hon ht).1
            exact ⟨hd, tl ++ [f], by simp [hb], hsp⟩
          · obtain ⟨pre, sil, hb, hlen, hall⟩ := (hon ht).2
            refine ⟨pre, sil ++ [f], by simp [hb], by simp [hlen], ?_⟩
            intro g hg
            rcases List.mem_append.mp hg with hg | hg
            · exact hall g hg
            · simp at hg; subst hg; simpa using h4
      · rw [show (stepSeg s f).1 = s by simp [stepSeg, h1, h2, h3, h4, ht]]
        exact ⟨hle, hoff, hon⟩
  · rw [show (stepSeg s f).1 = s by simp [stepSeg, h1, h2, h3]]
    exact ⟨hle, hoff, hon⟩

/-- When the step emits, the state was triggered at the limit, the frame is
silence, and the emitted utterance is the buffer plus this frame. -/
lemma stepSeg_emit_eq (s : SegState) (f : Frame) (u : List Frame)
    (h : (stepSeg s f).2 = some u) :
    f.held = false ∧ f.playing = false ∧ f.running = true ∧
    f.isSpeech = false ∧ s.triggered = true ∧
    SUCCESSIVE_SILENCE_LIMIT < s.silence + 1 ∧ u = s.buffer ++ [f] := by
  by_cases h1 : f.held = true
  · simp [stepSeg, h1] at h
  by_cases h2 : f.playing = true
  · simp [stepSeg, h1, h2] at h
  by_cases h3 : f.running = true
  · by_cases h4 : f.isSpeech = true
    · simp [stepSeg, h1, h2, h3, h4] at h
    · by_cases ht : s.triggered = true
      · by_cases hlim : SUCCESSIVE_SILENCE_LIMIT < s.silence + 1
        · have hred : (stepSeg s f).2 = some (s.buffer ++ [f]) := by
            simp [stepSeg, h1, h2, h3, h4, ht, hlim]
          rw [hred] at h
          simp only [Bool.not_eq_true] at h1 h2 h4
          exact ⟨h1, h2, h3, h4, ht, hlim, (Option.some.injEq _ _ ▸ h).symm⟩
        · simp [stepSeg, h1, h2, h3, h4, ht, hlim] at h
      · simp [stepSeg, h1, h2, h3, h4, ht] at h
  · simp [stepSeg, h1, h2, h3] at h

/-- Shape of every emitted utterance: begins with a speech frame and ends
with `SUCCESSIVE_SILENCE_LIMIT + 1` silence frames. -/
lemma stepSeg_emit_shape (s : SegState) (f : Frame) (u : List Frame)
    (hs : SegInv s) (h : (stepSeg s f).2 = some u) :
    (∃ hd tl, u = hd :: tl ∧ hd.isSpeech = true) ∧
    ∃ pre sil, u = pre ++ sil ∧ sil.length = SUCCESSIVE_SILENCE_LIMIT + 1 ∧
      ∀ g ∈ sil, g.isSpeech = false := by
  obtain ⟨_, _, _, h4, ht, hlim, hu⟩ := stepSeg_emit_eq s f u h
  obtain ⟨hle, _, hon⟩ := hs
  have hsil : s.silence = SUCCESSIVE_SILENCE_LIMIT := by omega
  obtain ⟨⟨hd, tl, hb, hsp⟩, pre, sil, hbuf, hlen, hall⟩ := hon ht
  constructor
  · exact ⟨hd, tl ++ [f], by simp [hu, hb], hsp⟩
  · refine ⟨pre, sil ++ [f], by simp [hu, hbuf], by simp [hlen, hsil], ?_⟩
    intro g hg
    rcases List.mem_append.mp hg with hg | hg
    · exact hall g hg
    · simp at hg; subst hg; simpa using h4

/-- Every utterance in the run's output has the emitted shape. -/
lemma runSeg_emit_shape (s : SegState) (fs : List Frame) (u : List Frame)
    (hs : SegInv s) (hu : u ∈ (runSeg s fs).2) :
    (∃ hd tl, u = hd :: tl ∧ hd.isSpeech = true) ∧
    ∃ pre sil, u = pre ++ sil ∧ sil.length = SUCCESSIVE_SILENCE_LIMIT + 1 ∧
      ∀ g ∈ sil, g.isSpeech = false := by
  induction fs generalizing s with
  | nil => simp [runSeg] at hu
  | cons f fs ih =>
    simp only [runSeg, List.mem_append] at hu
    rcases hu with hu | hu
    · rcases he : (stepSeg s f).2 with _ | v
      · simp [he] at hu
      · simp [he] at hu
        subst hu
        exact stepSeg_emit_shape s f u hs he
    · exact ih (stepSeg s f).1 (segInv_step s f hs) hu

/-! ## Sample-independence of segmentation (no RMS floor) -/

/-- Replace a frame's PCM samples, keeping every control field. -/
def mapSamples (g : List ℚ → List ℚ) (f : Frame) : Frame :=
  ⟨f.held, f.playing, f.running, f.isSpeech, g f.samples⟩

@[simp] lemma mapSamples_held (g : List ℚ → List ℚ) (f : Frame) :
    (mapSamples g f).held = f.held := rfl

@[simp] lemma mapSamples_playing (g : List ℚ → List ℚ) (f : Frame) :
    (mapSamples g f).playing = f.playing := rfl

@[simp] lemma mapSamples_running (g : List ℚ → List ℚ) (f : Frame) :
    (mapSamples g f).running = f.running := rfl

@[simp] lemma mapSamples_isSpeech (g : List ℚ → List ℚ) (f : Frame) :
    (mapSamples g f).isSpeech = f.isSpeech := rfl

/-- Replace the samples of every buffered frame. -/
def mapStateSamples (g : List ℚ → List ℚ) (s : SegState) : SegState :=
  ⟨s.triggered, s.buffer.map (mapSamples g), s.silence⟩

lemma stepSeg_mapSamples (g : List ℚ → List ℚ) (s : SegState) (f : Frame) :
    stepSeg (mapStateSamples g s) (mapSamples g f) =
      (mapStateSamples g (stepSeg s f).1,
       ((stepSeg s f).2).map (List.map (mapSamples g))) := by
  by_cases h1 : f.held = true
  · simp [stepSeg, h1, mapStateSamples, SegState.init]
  by_cases h2 : f.playing = true
  · simp [stepSeg, h1, h2, mapStateSamples, SegState.init]
  by_cases h3 : f.running = true
  · by_cases h4 : f.isSpeech = true
    · simp [stepSeg, h1, h2, h3, h4, mapStateSamples]
    · by_cases ht : s.triggered = true
      · by_cases hlim : SUCCESSIVE_SILENCE_LIMIT < s.silence + 1
        · simp [stepSeg, h1, h2, h3, h4, mapStateSamples, ht, hlim, SegState.init]
        · simp [stepSeg, h1, h2, h3, h4, mapStateSamples, ht, hlim]
      · simp [stepSeg, h1, h2, h3, h4, mapStateSamples, ht]
  · simp [stepSeg, h1, h2, h3, mapStateSamples]

lemma runSeg_mapSamples (g : List ℚ → List ℚ) (s : SegState) (fs : List Frame) :
    runSeg (mapStateSamples g s) (fs.map (mapSamples g)) =
      (mapStateSamples g (runSeg s fs).1,
       (runSeg s fs).2.map (List.map (mapSamples g))) := by
  induction fs generalizing s with
  | nil => simp [runSeg]
  | cons f fs ih =>
    simp only [List.map_cons, runSeg, stepSeg_mapSamples, ih]
    cases (stepSeg s f).2 <;> simp

/-- Sum of the squares of a frame's samples. -/
def Frame.sqSum (f : Frame) : ℚ := (f.samples.map fun x => x * x).sum

/-- Number of samples in an utterance. -/
def sampleCount (u : List Frame) : ℕ := (u.map fun f => f.samples.length).sum

/-- Mean of the squared samples over the whole utterance; the utterance's
mean RMS is its square root. -/
def meanSquare (u : List Frame) : ℚ := (u.map Frame.sqSum).sum / (sampleCount u : ℚ)

/-- Replace any sample list by one 30 ms frame of digital silence
(480 zero samples). -/
def zeroFill : List ℚ → List ℚ := fun _ => List.replicate 480 (0 : ℚ)

lemma sqSum_zeroFill (f : Frame) : Frame.sqSum (mapSamples zeroFill f) = 0 := by
  show ((List.replicate 480 (0 : ℚ)).map fun x => x * x).sum = 0
  rw [List.map_replicate, List.sum_replicate]
  norm_num

/-! ## Claim theorems about the segmenter -/

/-- Claim C1: whenever the shared interlock event is set or the engine's own
`is_playing_audio` flag is set, the capture callback resets its state to
`IDLE` (`triggered = False`, empty buffer, zero counter) and discards the
frame without emitting anything; consequently a run in which the interlock
is held throughout enqueues no utterance at all. -/
theorem c1_interlock_discards_frames :
    (∀ s f, f.held = true ∨ f.playing = true →
      stepSeg s f = (SegState.init, none)) ∧
    (∀ fs s, (∀ f ∈ fs, f.held = true) → (runSeg s fs).2 = []) := by
  constructor
  · intro s f h
    rcases h with h | h
    · simp [stepSeg, h]
    · by_cases h1 : f.held = true
      · simp [stepSeg, h1]
      · simp [stepSeg, h1, h]
  · intro fs
    induction fs with
    | nil => intro s _; simp [runSeg]
    | cons f fs ih =>
      intro s h
      have hf : f.held = true := h f (by simp)
      simp only [runSeg]
      rw [show stepSeg s f = (SegState.init, none) by simp [stepSeg, hf]]
      simpa using ih SegState.init fun g hg => h g (List.mem_cons_of_mem f hg)

/-- Witness for C1 at concrete inputs: a held frame wipes a mid-utterance
state, and a fully-interlocked run emits nothing. -/
theorem c1_interlock_discards_frames_witness :
    stepSeg ⟨true, [spF], 5⟩ heldF = (SegState.init, none) ∧
    (runSeg SegState.init [heldF, heldF]).2 = [] :=
  ⟨c1_interlock_discards_frames.1 ⟨true, [spF], 5⟩ heldF (Or.inl rfl),
   c1_interlock_discards_frames.2 [heldF, heldF] SegState.init (by decide)⟩

/-- Claim C3, counterexample: after one speech frame, 33 consecutive silence
frames (the claimed `END_SILENCE_FRAMES = int(1000/30) = 33`) do NOT emit an
utterance; emission happens only on the 34th consecutive silence frame,
because the source tests `silence_counter > SUCCESSIVE_SILENCE_LIMIT`
(strict), not `>=`. -/
theorem c3_counterexample_emission_at_33 :
    SUCCESSIVE_SILENCE_LIMIT = 33 ∧
    (runSeg SegState.init (spF :: List.replicate 33 siF)).2 = [] ∧
    (runSeg SegState.init (spF :: List.replicate 34 siF)).2
      = [spF :: List.replicate 34 siF] := by decide

/-- Claim C3 (amended): an utterance is emitted exactly when the trailing
silence counter first exceeds `SUCCESSIVE_SILENCE_LIMIT` (= 33), i.e. on the
34th consecutive trailing silence frame; hence every emitted utterance
begins with a speech frame and ends with `SUCCESSIVE_SILENCE_LIMIT + 1 = 34`
(in particular, at least 33) consecutive silence frames. -/
theorem c3_utterance_trailing_silence (fs u : List Frame)
    (hu : u ∈ (runSeg SegState.init fs).2) :
    (∃ hd tl, u = hd :: tl ∧ hd.isSpeech = true) ∧
    ∃ pre sil, u = pre ++ sil ∧ sil.length = SUCCESSIVE_SILENCE_LIMIT + 1 ∧
      ∀ g ∈ sil, g.isSpeech = false :=
  runSeg_emit_shape SegState.init fs u segInv_init hu

/-- Witness for C3 (amended) on the 35-frame run that emits one utterance. -/
theorem c3_utterance_trailing_silence_witness :
    (∃ hd tl, (spF :: List.replicate 34 siF) = hd :: tl ∧ hd.isSpeech = true) ∧
    ∃ pre sil, (spF :: List.replicate 34 siF) = pre ++ sil ∧
      sil.length = SUCCESSIVE_SILENCE_LIMIT + 1 ∧ ∀ g ∈ sil, g.isSpeech = false :=
  c3_utterance_trailing_silence (spF :: List.replicate 34 siF)
    (spF :: List.replicate 34 siF) (by decide)

/-- Claim C6, counterexample: a speech frame arriving while trailing silence
is draining DOES cancel the draining: it resets `silence_counter` to 0, so a
run with 20 trailing silence frames, an interrupting speech frame, and 14
further silence frames (34 silence frames in total after speech began)
emits nothing, and the state right after the interrupting speech frame has
a zero silence counter. -/
theorem c6_counterexample_speech_resets_drain :
    (runSeg SegState.init
      (spF :: (List.replicate 20 siF ++ [spF] ++ List.replicate 14 siF))).2 = [] ∧
    (runSeg SegState.init (spF :: (List.replicate 20 siF ++ [spF]))).1.silence = 0 := by
  decide

/-- Claim C6 (amended): a speech frame processed while the engine is capturing
(no interlock, running) always resets the trailing-silence counter to 0,
appends the frame to the buffer, and emits nothing; draining therefore starts
over and an utterance is emitted only after a fresh uninterrupted run of more
than `SUCCESSIVE_SILENCE_LIMIT` silence frames. -/
theorem c6_speech_resets_silence_counter (s : SegState) (f : Frame)
    (h1 : f.held = false) (h2 : f.playing = false) (h3 : f.running = true)
    (h4 : f.isSpeech = true) :
    stepSeg s f = (⟨true, s.buffer ++ [f], 0⟩, none) := by
  simp [stepSeg, h1, h2, h3, h4]

/-- Witness for C6 (amended): a speech frame at silence count 20 resets the
counter to 0 without emitting. -/
theorem c6_speech_resets_silence_counter_witness :
    stepSeg ⟨true, [spF, siF], 20⟩ spF = (⟨true, [spF, siF, spF], 0⟩, none) :=
  c6_speech_resets_silence_counter ⟨true, [spF, siF], 20⟩ spF rfl rfl rfl rfl

set_option maxRecDepth 4000 in
/-- Claim C7, counterexample: an utterance consisting entirely of
zero-amplitude samples (mean square 0, hence mean RMS 0 < 0.01) is still
emitted and enqueued for STT — the `silence_threshold = 0.01` attribute is
never consulted, so no RMS floor drops it after segmentation. -/
theorem c7_counterexample_quiet_utterance_enqueued :
    (runSeg SegState.init
        ((spF :: List.replicate 34 siF).map (mapSamples zeroFill))).2
      = [(spF :: List.replicate 34 siF).map (mapSamples zeroFill)] ∧
    meanSquare ((spF :: List.replicate 34 siF).map (mapSamples zeroFill)) = 0 ∧
    Real.sqrt ((meanSquare
      ((spF :: List.replicate 34 siF).map (mapSamples zeroFill)) : ℚ)) < 1 / 100 := by
  have hm : meanSquare ((spF :: List.replicate 34 siF).map (mapSamples zeroFill)) = 0 := by
    unfold meanSquare
    rw [List.sum_eq_zero, zero_div]
    intro x hx
    rcases List.mem_map.mp hx with ⟨f, hf, rfl⟩
    rcases List.mem_map.mp hf with ⟨f0, _, rfl⟩
    exact sqSum_zeroFill f0
  refine ⟨?_, hm, ?_⟩
  · have h := congrArg Prod.snd
      (runSeg_mapSamples zeroFill SegState.init (spF :: List.replicate 34 siF))
    rw [show runSeg SegState.init (spF :: List.replicate 34 siF)
          = (SegState.init, [spF :: List.replicate 34 siF]) by
        decide] at h
    simpa using h
  · rw [hm]
    simp only [Rat.cast_zero, Real.sqrt_zero]
    norm_num

/-- Claim C7 (amended): no mean-RMS floor is applied after segmentation:
the set of utterances the segmenter emits into the STT queue is completely
independent of the PCM sample values (only the per-frame VAD verdicts and
the interlock flags matter), so low-RMS utterances reach STT like any other.
The `silence_threshold` attribute set in `__init__` is dead. -/
theorem c7_segmentation_ignores_sample_values (g : List ℚ → List ℚ)
    (fs : List Frame) :
    (runSeg SegState.init (fs.map (mapSamples g))).2
      = (runSeg SegState.init fs).2.map (List.map (mapSamples g)) :=
  congrArg Prod.snd (runSeg_mapSamples g SegState.init fs)

/-! ## The playback consumer and the interlock protocol

`_playback_consumer` (lines 231-276): open a persistent output stream; loop
while running; when the output queue is non-empty, set `is_playing_audio`
and `shared_event` (acquire), drain the queue writing each chunk, and in a
`finally` clear both (release); a write exception propagates past the
`finally` to the outer `except`, which clears both again and ends the
worker; an open failure reaches the outer `except` directly. -/

/-- An operation on the shared interlock: `.set` models
`is_playing_audio = True; shared_event.set()`, `.clear` models
`is_playing_audio = False; shared_event.clear()`. -/
inductive IEvent where
  | set
  | clear
  deriving DecidableEq, Repr

/-- One poll of the playback loop: either the output queue is empty
(sleep 50 ms and continue), or a burst of `n` queued chunks is drained,
where `stream.write` raises on the chunk at index `failAt` (if any). -/
inductive PlayIter where
  | empty
  | burst (n : ℕ) (failAt : Option ℕ)

/-- Whether draining a burst of `n` chunks raises: only a chunk that is
actually written can raise. -/
def burstFails (n : ℕ) (failAt : Option ℕ) : Bool :=
  match failAt with
  | none => false
  | some i => decide (i < n)

/-- Interlock events of the playback loop, given the schedule of polls.
A failing burst runs the `finally` (clear), then the outer `except`
(clear again) and the worker ends; the schedule running out models
`is_running` becoming false (shutdown). -/
def runPlayback : List PlayIter → List IEvent
  | [] => []
  | PlayIter.empty :: rest => runPlayback rest
  | PlayIter.burst n failAt :: rest =>
    if burstFails n failAt then [IEvent.set, IEvent.clear, IEvent.clear]
    else IEvent.set :: IEvent.clear :: runPlayback rest

/-- The whole worker: if `RawOutputStream` cannot be opened, the outer
`except` clears the flags once and the worker exits without ever acquiring. -/
def playbackRun (openOk : Bool) (iters : List PlayIter) : List IEvent :=
  if openOk then runPlayback iters else [IEvent.clear]

/-- Effect of one interlock operation on the shared boolean event. -/
def applyEvent (_b : Bool) : IEvent → Bool
  | IEvent.set => true
  | IEvent.clear => false

/-- State of the shared event after a sequence of operations. -/
def applyEvents (b : Bool) (es : List IEvent) : Bool := es.foldl applyEvent b

/-- A trace is release-terminated: empty, or its last operation is a clear. -/
def EndsClear (l : List IEvent) : Prop :=
  l = [] ∨ l.getLast? = some IEvent.clear

lemma runPlayback_endsClear (iters : List PlayIter) :
    EndsClear (runPlayback iters) := by
  induction iters with
  | nil => left; rfl
  | cons it rest ih =>
    cases it with
    | empty => simpa [runPlayback] using ih
    | burst n failAt =>
      by_cases hf : burstFails n failAt = true
      · right; simp [runPlayback, hf]
      · rcases ih with h | h
        · right
          simp [runPlayback, hf, h]
        · right
          have hne : runPlayback rest ≠ [] := by
            intro hnil; rw [hnil] at h; simp at h
          simp only [runPlayback, if_neg hf]
          rcases List.exists_cons_of_ne_nil hne with ⟨e, es, hes⟩
          rw [hes] at h ⊢
          simpa [List.getLast?_cons_cons] using h

lemma playbackRun_endsClear (openOk : Bool) (iters : List PlayIter) :
    EndsClear (playbackRun openOk iters) := by
  by_cases h : openOk = true
  · simpa [playbackRun, h] using runPlayback_endsClear iters
  · right; simp [playbackRun, h]

lemma applyEvents_append_clear (b : Bool) (l : List IEvent) :
    applyEvents b (l ++ [IEvent.clear]) = false := by
  simp [applyEvents, List.foldl_append, applyEvent]

lemma endsClear_apply (b : Bool) (l : List IEvent) (h : EndsClear l)
    (hne : l ≠ [] ∨ b = false) : applyEvents b l = false := by
  rcases h with h | h
  · rcases hne with hne | hb
    · exact absurd h hne
    · simp [h, applyEvents, hb]
  · have hne2 : l ≠ [] := by intro hnil; rw [hnil] at h; simp at h
    have hsplit : l = l.dropLast ++ [IEvent.clear] := by
      have hl := List.dropLast_append_getLast hne2
      rw [← List.getLast_eq_iff_getLast?_eq_some hne2] at h
      rw [h] at hl
      exact hl.symm
    rw [hsplit, applyEvents_append_clear]

/-- An interleaving of the interlock operations of two concurrently running
workers (order within each worker preserved). -/
inductive Interleave : List IEvent → List IEvent → List IEvent → Prop where
  | nil : Interleave [] [] []
  | left : ∀ {x xs ys zs}, Interleave xs ys zs → Interleave (x :: xs) ys (x :: zs)
  | right : ∀ {y xs ys zs}, Interleave xs ys zs → Interleave xs (y :: ys) (y :: zs)

lemma interleave_nil_eq {xs ys : List IEvent} (h : Interleave xs ys []) :
    xs = [] ∧ ys = [] := by
  cases h
  exact ⟨rfl, rfl⟩

lemma interleave_getLast {xs ys zs : List IEvent} (h : Interleave xs ys zs) :
    zs.getLast? = xs.getLast? ∨ zs.getLast? = ys.getLast? := by
  induction h with
  | nil => left; rfl
  | @left x xs ys zs h ih =>
    cases zs with
    | nil =>
      obtain ⟨hx, _⟩ := interleave_nil_eq h
      subst hx
      left; rfl
    | cons z zs2 =>
      rcases ih with ih | ih
      · cases xs with
        | nil => simp at ih
        | cons x2 xs2 =>
          left
          rw [List.getLast?_cons_cons, ih, List.getLast?_cons_cons]
      · right
        rw [List.getLast?_cons_cons, ih]
  | @right y xs ys zs h ih =>
    cases zs with
    | nil =>
      obtain ⟨_, hy⟩ := interleave_nil_eq h
      subst hy
      right; rfl
    | cons z zs2 =>
      rcases ih with ih | ih
      · left
        rw [List.getLast?_cons_cons, ih]
      · cases ys with
        | nil => simp at ih
        | cons y2 ys2 =>
          right
          rw [List.getLast?_cons_cons, ih, List.getLast?_cons_cons]

lemma interleave_endsClear {xs ys zs : List IEvent} (h : Interleave xs ys zs)
    (hx : EndsClear xs) (hy : EndsClear ys) : EndsClear zs := by
  cases hzs : zs with
  | nil => left; rfl
  | cons z zs2 =>
    right
    subst hzs
    have hne : (z :: zs2).getLast?.isSome := by simp
    rcases interleave_getLast h with hg | hg
    · rw [hg] at hne ⊢
      rcases hx with hx | hx
      · rw [hx] at hne; simp at hne
      · exact hx
    · rw [hg] at hne ⊢
      rcases hy with hy | hy
      · rw [hy] at hne; simp at hne
      · exact hy

lemma runPlayback_count (iters : List PlayIter) :
    (runPlayback iters).count IEvent.set
      ≤ (runPlayback iters).count IEvent.clear := by
  induction iters with
  | nil => simp [runPlayback]
  | cons it rest ih =>
    cases it with
    | empty => exact ih
    | burst n failAt =>
      by_cases hf : burstFails n failAt = true
      · simp [runPlayback, hf]
      · rw [show runPlayback (PlayIter.burst n failAt :: rest)
            = IEvent.set :: IEvent.clear :: runPlayback rest by
          simp [runPlayback, hf]]
        simp only [List.count_cons]
        simp only [beq_iff_eq, reduceCtorEq, if_false, if_true, if_pos, reduceIte]
        omega

/-- Claim C2: every acquisition of the interlock by the playback worker is
matched by a release on every exit path — normal drain completion, an
exception while writing (the `finally` plus the outer `except`), failure to
open the stream, and shutdown. Starting from a released event, any single
run and any interleaving of the traces of two engines sharing the event
leaves the interlock not held, and no trace has more acquires than
releases. -/
theorem c2_interlock_released_on_all_paths :
    (∀ openOk iters,
      applyEvents false (playbackRun openOk iters) = false ∧
      (playbackRun openOk iters).count IEvent.set
        ≤ (playbackRun openOk iters).count IEvent.clear) ∧
    (∀ ok1 it1 ok2 it2 zs,
      Interleave (playbackRun ok1 it1) (playbackRun ok2 it2) zs →
      applyEvents false zs = false) := by
  constructor
  · intro openOk iters
    constructor
    · exact endsClear_apply false _ (playbackRun_endsClear openOk iters) (Or.inr rfl)
    · by_cases h : openOk = true
      · simpa [playbackRun, h] using runPlayback_count iters
      · simp [playbackRun, h]
  · intro ok1 it1 ok2 it2 zs hz
    exact endsClear_apply false zs
      (interleave_endsClear hz (playbackRun_endsClear ok1 it1)
        (playbackRun_endsClear ok2 it2)) (Or.inr rfl)

/-- Witness for C2: two engines, one normal burst each, interleaved
strictly; also a failing burst releases. -/
theorem c2_interlock_released_on_all_paths_witness :
    applyEvents false (playbackRun true [PlayIter.burst 2 (some 0)]) = false ∧
    applyEvents false
      [IEvent.set, IEvent.clear, IEvent.set, IEvent.clear] = false :=
  ⟨(c2_interlock_released_on_all_paths.1 true [PlayIter.burst 2 (some 0)]).1,
   c2_interlock_released_on_all_paths.2 true [PlayIter.burst 1 none]
     true [PlayIter.burst 1 none]
     [IEvent.set, IEvent.clear, IEvent.set, IEvent.clear]
     (Interleave.left (Interleave.left
       (Interleave.right (Interleave.right Interleave.nil))))⟩

/-! ## The per-utterance processing step

`_processing_consumer` (lines 165-229) per utterance: `_transcribe` yields a
text or `None`; the filter (lines 182-194) drops it; `_translate`
(lines 308-327) produces a translation; empty translation drops (line 199);
otherwise the transcript pair is published and the TTS stream is started.
Python string methods are modelled on the character list of the text:
`strip()` removes leading and trailing whitespace, `lower()` lower-cases
every character. -/

/-- Python `str.strip()` on a character list. -/
def pyStrip (cs : List Char) : List Char :=
  ((cs.dropWhile Char.isWhitespace).reverse.dropWhile Char.isWhitespace).reverse

/-- Python `text.strip().lower()`: the `clean_text` of line 188. -/
def cleanText (s : String) : List Char := (pyStrip s.data).map Char.toLower

/-- `clean_text.startswith("(")` (line 192). -/
def startsWithParen (cs : List Char) : Bool :=
  match cs with
  | c :: _ => c == '('
  | [] => false

/-- The `ignored_phrases` list of lines 183-186, verbatim. -/
def ignoredPhrases : List String :=
  [".", "...", "?", "!", "you", "thank you", "subtitles",
   "watching", "video", "subscribe", "notification", "copyright"]

/-- The filter of lines 189-193 for a present (non-`None`) transcript text:
`not text or len(clean_text) < 2 or clean_text in ignored_phrases or
clean_text.startswith("(")`. -/
def filtersOut (text : String) : Bool :=
  let clean := cleanText text
  text == "" || decide (clean.length < 2) ||
    ignoredPhrases.any (fun p => p.data == clean) || startsWithParen clean

/-- The possible behaviours of the MT provider call inside `_translate`:
the API call raises (`TranslatorError`), the response body is not valid
JSON (`json.loads` raises), or a JSON object is parsed whose
`"translation"` key may be absent. -/
inductive MTOutcome where
  | apiError
  | badJSON
  | parsed (translation : Option String)

/-- `_translate` (lines 308-327): returns the translation and whether
`logger.error("Translation failed: ...")` ran. Both exception paths are
caught by the single `except` and return the ORIGINAL text; a parsed object
yields `data.get("translation", "")`. -/
def translateStep (text : String) (o : MTOutcome) : String × Bool :=
  match o with
  | MTOutcome.apiError => (text, true)
  | MTOutcome.badJSON => (text, true)
  | MTOutcome.parsed tr => (tr.getD "", false)

/-- Observable outcome of processing one utterance: whether `_translate`
was invoked, the text handed to `_text_to_speech` (if any), the message
delivered to `verbose_callback` (the status sink), and the message given to
`logger.info`. -/
structure ProcResult where
  mtCalled : Bool
  ttsText : Option String
  statusMsg : Option String
  logMsg : Option String
  deriving DecidableEq, Repr

/-- One iteration of `_processing_consumer` on a dequeued utterance whose
transcription produced `text` (`none` models `_transcribe` returning
`None`), with the MT provider behaving as `o`. -/
def processUtterance (engineName : String) (text : Option String)
    (o : MTOutcome) : ProcResult :=
  match text with
  | none => ⟨false, none, none, none⟩
  | some t =>
    if filtersOut t then ⟨false, none, none, none⟩
    else
      let translated := (translateStep t o).1
      if translated = "" then ⟨true, none, none, none⟩
      else
        ⟨true, some translated,
         some ("Original: " ++ t ++ " -> Translated: " ++ translated),
         some ("[" ++ engineName ++ "] Original: " ++ t ++ " -> Translated: "
           ++ translated)⟩

/-- Claim C4: a transcript that is `None`, empty, shorter than 2 characters
after strip+lower, in the ignore list after strip+lower, or starting with
`(` after strip+lower, is dropped before `_translate` is ever invoked and
produces no output at all; in particular `"."`, `"(applause)"` and
`"thank you"` never reach MT. -/
theorem c4_filtered_transcript_never_reaches_mt :
    (∀ (e : String) (t : Option String) (o : MTOutcome),
      (t = none ∨ t = some "" ∨
        (∃ s, t = some s ∧
          ((cleanText s).length < 2 ∨
           (∃ p ∈ ignoredPhrases, p.data = cleanText s) ∨
           startsWithParen (cleanText s) = true))) →
      processUtterance e t o = ⟨false, none, none, none⟩) ∧
    (∀ (e : String) (o : MTOutcome),
      processUtterance e (some ".") o = ⟨false, none, none, none⟩ ∧
      processUtterance e (some "(applause)") o = ⟨false, none, none, none⟩ ∧
      processUtterance e (some "thank you") o = ⟨false, none, none, none⟩) := by
  constructor
  · intro e t o h
    rcases h with h | h | ⟨s, rfl, h⟩
    · rw [h]; rfl
    · rw [h]
      simp [processUtterance, filtersOut]
    · have hf : filtersOut s = true := by
        show (s == "" || decide ((cleanText s).length < 2) ||
          ignoredPhrases.any (fun p => p.data == cleanText s) ||
          startsWithParen (cleanText s)) = true
        simp only [Bool.or_eq_true, decide_eq_true_eq, List.any_eq_true,
          beq_iff_eq]
        rcases h with h | ⟨p, hp, hpc⟩ | h
        · exact Or.inl (Or.inl (Or.inr h))
        · exact Or.inl (Or.inr ⟨p, hp, hpc⟩)
        · exact Or.inr h
      simp [processUtterance, hf]
  · intro e o
    refine ⟨?_, ?_, ?_⟩ <;>
      simp [processUtterance, show filtersOut "." = true by decide,
        show filtersOut "(applause)" = true by decide,
        show filtersOut "thank you" = true by decide]

/-- Witness for C4 at the three concrete transcripts of the claim. -/
theorem c4_filtered_transcript_never_reaches_mt_witness :
    processUtterance "SENDER" (some ".") MTOutcome.apiError
      = ⟨false, none, none, none⟩ ∧
    processUtterance "SENDER" (some "(applause)") MTOutcome.apiError
      = ⟨false, none, none, none⟩ ∧
    processUtterance "SENDER" (some "thank you") MTOutcome.apiError
      = ⟨false, none, none, none⟩ :=
  ⟨c4_filtered_transcript_never_reaches_mt.1 "SENDER" (some ".")
      MTOutcome.apiError (Or.inr (Or.inr ⟨".", rfl, Or.inl (by decide)⟩)),
   c4_filtered_transcript_never_reaches_mt.1 "SENDER" (some "(applause)")
      MTOutcome.apiError
      (Or.inr (Or.inr ⟨"(applause)", rfl, Or.inr (Or.inr (by decide))⟩)),
   c4_filtered_transcript_never_reaches_mt.1 "SENDER" (some "thank you")
      MTOutcome.apiError
      (Or.inr (Or.inr ⟨"thank you", rfl, Or.inr (Or.inl (by decide))⟩))⟩

/-- Claim C5, counterexample: when the MT provider raises
(`TranslatorError`) on the transcript `"hello"`, the utterance is NOT
dropped: `_translate`'s own `except` swallows the error and returns the
original text, so TTS is invoked with the untranslated `"hello"` and the
transcript pair is still published; no 2 s backoff runs because no
exception escapes into the processing loop. -/
theorem c5_counterexample_translator_error_not_dropped :
    processUtterance "SENDER" (some "hello") MTOutcome.apiError
      = ⟨true, some "hello", some "Original: hello -> Translated: hello",
         some "[SENDER] Original: hello -> Translated: hello"⟩ := by
  decide

/-- Claim C5 (amended): only an EMPTY translation drops the utterance
before TTS (with no error log and no backoff); a `TranslatorError` from the
provider is caught inside `_translate`, which logs it and returns the
original text, and that original text then proceeds to TTS. -/
theorem c5_translation_failure_behaviour :
    (∀ (e t : String) (o : MTOutcome), (translateStep t o).1 = "" →
      (processUtterance e (some t) o).ttsText = none) ∧
    (∀ t : String, translateStep t MTOutcome.apiError = (t, true)) ∧
    (∀ e t : String, filtersOut t = false →
      (processUtterance e (some t) MTOutcome.apiError).ttsText = some t) := by
  refine ⟨?_, fun t => rfl, ?_⟩
  · intro e t o h
    by_cases hf : filtersOut t = true
    · simp [processUtterance, hf]
    · simp [processUtterance, hf, h]
  · intro e t hf
    have ht : ¬ t = "" := by
      intro h
      rw [h] at hf
      simp [filtersOut] at hf
    simp [processUtterance, hf, translateStep, ht]

/-- Witness for C5 (amended): an empty parsed translation is dropped before
TTS; a raising provider passes `"hello"` through to TTS. -/
theorem c5_translation_failure_behaviour_witness :
    (processUtterance "SENDER" (some "hello")
      (MTOutcome.parsed (some ""))).ttsText = none ∧
    translateStep "hello" MTOutcome.apiError = ("hello", true) ∧
    (processUtterance "SENDER" (some "hello")
      MTOutcome.apiError).ttsText = some "hello" :=
  ⟨c5_translation_failure_behaviour.1 "SENDER" "hello"
      (MTOutcome.parsed (some "")) rfl,
   c5_translation_failure_behaviour.2.1 "hello",
   c5_translation_failure_behaviour.2.2 "SENDER" "hello" (by decide)⟩

/-- Claim C8, evaluated at the failing input: for the SENDER engine with
transcript `"hello"` translated to `"ہیلو"`, the message delivered to the
status sink (`verbose_callback`, line 205) is
`"Original: hello -> Translated: ہیلو"` — WITHOUT the engine-name tag; the
tagged form `"[SENDER] Original: ..."` goes only to `logger.info`
(line 206). The GUI (`src/main.py` line 267) parses status-sink messages
with the pattern `"[(SENDER|RECEIVER)] Original: ..."`, which therefore
never matches: the code contradicts its own consumer, and the spec's tagged
format is the intent. -/
theorem c8_status_sink_message_lacks_engine_tag :
    (processUtterance "SENDER" (some "hello")
        (MTOutcome.parsed (some "ہیلو"))).statusMsg
      = some "Original: hello -> Translated: ہیلو" ∧
    (processUtterance "SENDER" (some "hello")
        (MTOutcome.parsed (some "ہیلو"))).statusMsg
      ≠ some "[SENDER] Original: hello -> Translated: ہیلو" ∧
    (processUtterance "SENDER" (some "hello")
        (MTOutcome.parsed (some "ہیلو"))).logMsg
      = some "[SENDER] Original: hello -> Translated: ہیلو" := by
  refine ⟨by decide, by decide, by decide⟩

/-- Claim C9: when the MT response cannot be parsed as JSON, `_translate`
returns the original input text unchanged (best-effort passthrough) and
logs the failure, rather than raising or returning empty. -/
theorem c9_parse_failure_returns_original (t : String) :
    translateStep t MTOutcome.badJSON = (t, true) := rfl

/-! ## Language-code resolution -/

/-- The fixed `lang_map` of `__init__` (lines 45-50), verbatim. -/
def langMap : List (String × String) :=
  [("English", "en"), ("Urdu", "ur"), ("Hindi", "hi"), ("Spanish", "es"),
   ("Japanese", "ja"), ("French", "fr"), ("German", "de"), ("Chinese", "zh"),
   ("Arabic", "ar"), ("Russian", "ru"), ("Portuguese", "pt"),
   ("Italian", "it"), ("Korean", "ko"), ("Turkish", "tr"), ("Dutch", "nl")]

/-- `self.lang_map.get(self.source_lang, "en")` in `_transcribe` (line 290):
a total lookup that never raises. -/
def resolveLangCode (sourceLang : String) : String :=
  match langMap.find? (fun p => p.1 == sourceLang) with
  | some p => p.2
  | none => "en"

/-- Claim C10: every enumerated language name resolves to its table code,
and any source language outside the 15-entry table resolves to the fallback
`"en"`; resolution is total, so transcription never fails on it. -/
theorem c10_language_resolution :
    (∀ p ∈ langMap, resolveLangCode p.1 = p.2) ∧
    (∀ s : String, s ∉ langMap.map Prod.fst → resolveLangCode s = "en") := by
  constructor
  · decide
  · intro s hs
    unfold resolveLangCode
    rcases hfind : langMap.find? (fun p => p.1 == s) with _ | q
    · rw [hfind]
    · exfalso
      have hmem : q ∈ langMap := List.mem_of_find?_eq_some hfind
      have hbeq := List.find?_some hfind
      simp only [beq_iff_eq] at hbeq
      exact hs (List.mem_map.mpr ⟨q, hmem, hbeq⟩)

/-- Witness for C10: `"Urdu"` maps to `"ur"`; the unlisted `"Klingon"`
falls back to `"en"`. -/
theorem c10_language_resolution_witness :
    resolveLangCode "Urdu" = "ur" ∧ resolveLangCode "Klingon" = "en" :=
  ⟨c10_language_resolution.1 ("Urdu", "ur") (by decide),
   c10_language_resolution.2 "Klingon" (by decide)⟩

end SpeechEngine
